import Mathlib

set_option maxHeartbeats 1000000

namespace QuantAI

/-! ### Python dict embedding

Dicts of the pipeline are embedded as association lists with unique keys,
looked up with propositional key equality. -/

/-- Association list lookup: Python `d.get(k)` returning the value stored
under `k`, if any. -/
def alookup {κ α : Type} [DecidableEq κ] : List (κ × α) → κ → Option α
  | [], _ => none
  | p :: rest, k => if p.1 = k then some p.2 else alookup rest k

/-- Python `d.get(k, default)`. -/
def getD {κ α : Type} [DecidableEq κ] (m : List (κ × α)) (k : κ) (d : α) : α :=
  (alookup m k).getD d

/-- Python `d[k] = v`: replace in place when the key is present, else append
(dicts preserve insertion order). -/
def setItem {κ α : Type} [DecidableEq κ] : List (κ × α) → κ → α → List (κ × α)
  | [], k, v => [(k, v)]
  | p :: rest, k, v => if p.1 = k then (k, v) :: rest else p :: setItem rest k v

/-! ### lean_bridge/contracts.py -/

/-- A Python float as handed to validation: a finite rational or one of the
non-finite IEEE values. Arithmetic elsewhere in the pipeline is idealized
over the rationals. -/
inductive PyFloat where
  | val : ℚ → PyFloat
  | nan : PyFloat
  | posInf : PyFloat
  | negInf : PyFloat
deriving DecidableEq, Repr

/-- math.isfinite. -/
def PyFloat.isfinite : PyFloat → Bool
  | .val _ => true
  | _ => false

/-- InsightDirection enum: FLAT = 0, UP = 1, DOWN = -1. -/
inductive InsightDirection where
  | flat | up | down
deriving DecidableEq, Repr

/-- InsightType enum. -/
inductive InsightType where
  | price | volatility
deriving DecidableEq, Repr

/-- Validated Insight (contracts.py), after pydantic construction succeeded.
datetime and timedelta are embedded as rationals on one timeline. -/
structure Insight where
  symbol : String
  generated_time_utc : ℚ
  period : ℚ
  type : InsightType := .price
  direction : InsightDirection
  magnitude : ℚ
  confidence : ℚ := 0
  weight : Option ℚ := none
  source_model : String
  tag : Option String := none
deriving DecidableEq, Repr

/-- The field values handed to the Insight constructor before pydantic
validation runs: magnitude may be any Python float, period any timedelta. -/
structure RawInsight where
  symbol : String
  generated_time_utc : ℚ
  period : ℚ
  type : InsightType := .price
  direction : InsightDirection
  magnitude : PyFloat
  confidence : ℚ := 0
  weight : Option ℚ := none
  source_model : String
  tag : Option String := none
deriving DecidableEq, Repr

/-- Insight construction with pydantic validation; `none` models a raised
ValidationError. Checks embedded from contracts.py: check_finite_magnitude
(magnitude finite), check_positive_period (total_seconds() > 0), and the
Field(ge=0.0, le=1.0) bounds on confidence. -/
def validateInsight (r : RawInsight) : Option Insight :=
  match r.magnitude with
  | .val q =>
      if 0 < r.period then
        if 0 ≤ r.confidence ∧ r.confidence ≤ 1 then
          some { symbol := r.symbol, generated_time_utc := r.generated_time_utc,
                 period := r.period, type := r.type, direction := r.direction,
                 magnitude := q, confidence := r.confidence, weight := r.weight,
                 source_model := r.source_model, tag := r.tag }
        else none
      else none
  | _ => none

/-- Insight.is_expired: generated_time_utc + period ≤ utc_time. -/
def Insight.is_expired (i : Insight) (t : ℚ) : Bool :=
  decide (i.generated_time_utc + i.period ≤ t)

/-- PortfolioTarget (contracts.py): immutable signed target quantity. -/
structure PortfolioTarget where
  symbol : String
  quantity : ℚ
  tag : Option String := none
deriving DecidableEq, Repr

/-! ### lean_bridge/context.py -/

/-- One entry of portfolio_state["positions"]: long and short quantities,
each read with .get(key, 0). -/
structure Position where
  long : ℚ := 0
  short : ℚ := 0
deriving DecidableEq, Repr

/-- portfolio_state dict: equity (read with default 100000.0 when absent,
embedded as the structure default) and the positions dict. -/
structure PortfolioState where
  equity : ℚ := 100000
  positions : List (String × Position) := []
deriving DecidableEq, Repr

/-- One entry of config["quant_scorecard"]: a dict whose "metrics" key holds
a metric-name to value dict; scorecard.get("metrics", \x7b\x7d) is the
structure default. -/
structure ScorecardEntry where
  metrics : List (String × ℚ) := []
deriving DecidableEq, Repr

/-- AlgorithmContext (context.py): the per-cycle snapshot. The untyped
config dict is embedded by the two keys the pipeline reads
(current_prices, quant_scorecard), each defaulting to the empty dict. -/
structure AlgorithmContext where
  time : ℚ
  -- the universe field of context.py (universe is reserved in Lean)
  universeSymbols : List String := []
  portfolio_state : PortfolioState := {}
  current_prices : List (String × ℚ) := []
  quant_scorecard : List (String × ScorecardEntry) := []
deriving DecidableEq, Repr

/-! ### core/execution_planner.py -/

def buyAction : String := "buy"
def sellAction : String := "sell"
def holdAction : String := "hold"

structure ExecutionPlanner where
  min_trade_value : ℚ := 500
  slippage_pct : ℚ := 5 / 10000
deriving DecidableEq, Repr

/-- Order record appended by ExecutionPlanner.execute. The reasoning field,
a display-only format string over the same numbers, is not modelled. -/
structure OrderRecord where
  ticker : String
  action : String
  quantity : ℚ
  trade_value : ℚ
  cost_estimate : ℚ
deriving DecidableEq, Repr

/-- float(current_prices.get(symbol, 0.0)). -/
def symbolPrice (ctx : AlgorithmContext) (s : String) : ℚ :=
  getD ctx.current_prices s 0

/-- pos.get("long", 0) - pos.get("short", 0) for
positions.get(symbol, default). -/
def currentQty (ctx : AlgorithmContext) (s : String) : ℚ :=
  let pos := getD ctx.portfolio_state.positions s {}
  pos.long - pos.short

/-- The action assignment of the loop: start at hold, overwrite with buy
when the delta is positive and with sell when it is negative. -/
def actionFor (diff : ℚ) : String :=
  if 0 < diff then buyAction else if diff < 0 then sellAction else holdAction

/-- The per-target loop body of ExecutionPlanner.execute; `none` is the
`continue` (skip) path. -/
def planOrder (p : ExecutionPlanner) (ctx : AlgorithmContext)
    (target : PortfolioTarget) : Option OrderRecord :=
  let price := symbolPrice ctx target.symbol
  if price ≤ 0 then none
  else
    let diff := target.quantity - currentQty ctx target.symbol
    let trade_value := |diff * price|
    if trade_value < p.min_trade_value then none
    else
      some { ticker := target.symbol,
             action := actionFor diff,
             quantity := |diff|,
             trade_value := trade_value,
             cost_estimate := trade_value * p.slippage_pct }

/-- ExecutionPlanner.execute: the loop over targets collecting the
non-skipped order records in order. -/
def ExecutionPlanner.execute (p : ExecutionPlanner)
    (targets : List PortfolioTarget) (ctx : AlgorithmContext) :
    List OrderRecord :=
  targets.filterMap (planOrder p ctx)

/-! ### Concrete fixtures -/

def aapl : String := "AAPL"

def defaultPlanner : ExecutionPlanner := {}

/-- Context mirroring the repository test fixture: AAPL priced 150,
current position long 100, equity 100000. -/
def c4Ctx : AlgorithmContext :=
  { time := 0,
    portfolio_state := { equity := 100000,
                         positions := [(aapl, { long := 100, short := 0 })] },
    current_prices := [(aapl, 150)] }

def c4Target : PortfolioTarget := { symbol := aapl, quantity := 133 }

def c4Targets : List PortfolioTarget := [c4Target]

/-- A planner configured with a zero minimum trade value. -/
def zeroMinPlanner : ExecutionPlanner := { min_trade_value := 0 }

/-- Targets exactly equal to the current AAPL holding of c4Ctx. -/
def holdTargets : List PortfolioTarget := [{ symbol := aapl, quantity := 100 }]

/-! ### graph/risk_management.py -/

def altmanKey : String := "altman_z"

structure InstitutionalRiskModel where
  max_concentration : ℚ := 1 / 5
  min_altman_z : ℚ := 9 / 5
deriving DecidableEq, Repr

/-- metrics.get("altman_z", 0.0) of quant_scorecard.get(symbol, default)
read through the "metrics" key. -/
def altmanZ (ctx : AlgorithmContext) (s : String) : ℚ :=
  getD (getD ctx.quant_scorecard s {}).metrics altmanKey 0

/-- The per-target body of InstitutionalRiskModel.adjust_targets: the
Altman Z distress veto followed by the concentration cap. Python float
floor division `(total_equity * max_concentration * sign) // price`
is the floor toward negative infinity; the int() around it is the
identity on an integral float. -/
def adjustTarget (m : InstitutionalRiskModel) (ctx : AlgorithmContext)
    (target : PortfolioTarget) : PortfolioTarget :=
  let z := altmanZ ctx target.symbol
  let q1 : ℚ := if z < m.min_altman_z ∧ z ≠ 0 then 0 else target.quantity
  let total_equity := ctx.portfolio_state.equity
  let price := symbolPrice ctx target.symbol
  let q2 : ℚ :=
    if 0 < price then
      if total_equity * m.max_concentration < |q1 * price| then
        ((Int.floor ((total_equity * m.max_concentration *
            (if 0 < q1 then 1 else -1)) / price) : ℤ) : ℚ)
      else q1
    else q1
  { symbol := target.symbol, quantity := q2, tag := target.tag }

/-- InstitutionalRiskModel.adjust_targets: the gate applied to each target
in order, returning new immutable instances. -/
def InstitutionalRiskModel.adjust_targets (m : InstitutionalRiskModel)
    (targets : List PortfolioTarget) (ctx : AlgorithmContext) :
    List PortfolioTarget :=
  targets.map (adjustTarget m ctx)

def xyz : String := "XYZ"

def c1Ctx : AlgorithmContext :=
  { time := 0,
    portfolio_state := { equity := 100000, positions := [] },
    current_prices := [(xyz, 3)] }

def c1Model : InstitutionalRiskModel := {}

def tsla : String := "TSLA"

/-- Context with a distressed TSLA scorecard entry (z = 1, below 1.8). -/
def c2Ctx : AlgorithmContext :=
  { time := 0,
    portfolio_state := { equity := 100000 },
    current_prices := [(tsla, 200)],
    quant_scorecard := [(tsla, { metrics := [(altmanKey, 1)] })] }

/-! ### lean_bridge/insight_collection.py -/

abbrev InsightKey := String × String

/-- (insight.symbol, insight.source_model). -/
def insightKey (i : Insight) : InsightKey := (i.symbol, i.source_model)

/-- InsightCollection: the dict keyed by (symbol, source_model), in
insertion order. -/
structure InsightCollection where
  _active_insights : List (InsightKey × Insight) := []
deriving DecidableEq, Repr

/-- The freshly constructed empty collection. -/
def emptyCollection : InsightCollection := {}

/-- One iteration of the InsightCollection.add loop: insert when the key is
absent, else replace exactly when the incoming generated_time_utc is
greater than or equal to the stored one. -/
def addOne (c : InsightCollection) (i : Insight) : InsightCollection :=
  match alookup c._active_insights (insightKey i) with
  | none => { _active_insights := setItem c._active_insights (insightKey i) i }
  | some existing =>
      if existing.generated_time_utc ≤ i.generated_time_utc then
        { _active_insights := setItem c._active_insights (insightKey i) i }
      else c

/-- InsightCollection.add over a list of new insights. -/
def InsightCollection.add (c : InsightCollection) (insights : List Insight) :
    InsightCollection :=
  insights.foldl addOne c

/-- InsightCollection.remove_expired: deleting every collected expired key
is keeping the non-expired entries, keys being unique. -/
def InsightCollection.remove_expired (c : InsightCollection) (t : ℚ) :
    InsightCollection :=
  { _active_insights := c._active_insights.filter (fun p => ! p.2.is_expired t) }

/-- InsightCollection.clear: force-drop the entries whose symbol left the
universe. -/
def InsightCollection.clear (c : InsightCollection) (symbols : List String) :
    InsightCollection :=
  { _active_insights := c._active_insights.filter (fun p => ! symbols.contains p.1.1) }

/-- InsightCollection.get_active_insights: the non-expired values, in
insertion order. -/
def InsightCollection.get_active_insights (c : InsightCollection) (t : ℚ) :
    List Insight :=
  (c._active_insights.map (fun p => p.2)).filter (fun i => ! i.is_expired t)

def modelA : String := "M1"

/-- Two insights sharing the key (AAPL, M1) with strictly increasing
generated times, as in the repository lifecycle test. -/
def w6a : Insight :=
  { symbol := aapl, generated_time_utc := 0, period := 10, direction := .up,
    magnitude := 1 / 20, source_model := modelA }

def w6b : Insight :=
  { symbol := aapl, generated_time_utc := 1, period := 10, direction := .down,
    magnitude := -(1 / 50), source_model := modelA }

/-- A one-insight collection for the expiry-boundary witness. -/
def w7Collection : InsightCollection :=
  { _active_insights := [(insightKey w6a, w6a)] }

/-- A raw insight carrying a NaN magnitude. -/
def rawNaN : RawInsight :=
  { symbol := aapl, generated_time_utc := 0, period := 10, direction := .up,
    magnitude := .nan, source_model := modelA }

/-- A raw insight with finite magnitude, positive period and confidence in
range. -/
def rawGood : RawInsight :=
  { symbol := aapl, generated_time_utc := 0, period := 10, direction := .up,
    magnitude := .val (1 / 20), confidence := 4 / 5, source_model := modelA }

/-! ### core/portfolio_manager.py -/

/-- A pandas DataFrame of numeric data: column labels plus rows aligned
with them. -/
structure DataFrame where
  cols : List String
  rows : List (List ℚ)
deriving DecidableEq, Repr

/-- df.empty: zero rows or zero columns. -/
def DataFrame.empty (df : DataFrame) : Bool :=
  df.rows.isEmpty || df.cols.isEmpty

/-- df.shape[1]. -/
def DataFrame.width (df : DataFrame) : Nat :=
  df.cols.length

/-- The entry of a row under a column label. -/
def DataFrame.colValue (df : DataFrame) (row : List ℚ) (s : String) : ℚ :=
  row.getD (List.indexOf s df.cols) 0

/-- df[symbols]: select columns by label in the given order; `none` models
the KeyError raised when a label is missing. -/
def DataFrame.select (df : DataFrame) (symbols : List String) :
    Option DataFrame :=
  if symbols.all (fun s => df.cols.contains s) then
    some { cols := symbols,
           rows := df.rows.map (fun row => symbols.map (df.colValue row)) }
  else none

/-- pct_change().dropna(): relative change between consecutive rows, the
first row dropped. A zero previous price, which pandas sends to an
infinite value, lies outside the modelled domain. -/
def DataFrame.pctChange (df : DataFrame) : DataFrame :=
  { cols := df.cols,
    rows := (df.rows.zip df.rows.tail).map
      (fun pr => (pr.1.zip pr.2).map (fun ab => (ab.2 - ab.1) / ab.1)) }

/-- The synthetic returns frame built when history is absent:
np.random.randn(lookback, N) * 0.01 under the saved-and-restored seed 42.
The generator values are opaque to the embedding, hence the noise
parameter; only the shape (lookback rows, one column per symbol) affects
control flow. -/
def syntheticFrame (noise : Nat → Nat → ℚ) (lookback : Nat)
    (symbols : List String) : DataFrame :=
  { cols := symbols,
    rows := (List.range lookback).map
      (fun t => (List.range symbols.length).map (fun j => noise t j)) }

/-- _get_returns_matrix: the seeded synthetic frame when history is None or
empty, otherwise history[symbols].pct_change().dropna(); `none` models a
raised exception (KeyError on a missing column). -/
def getReturnsMatrix (noise : Nat → Nat → ℚ) (lookback : Nat)
    (symbols : List String) (history : Option DataFrame) :
    Option DataFrame :=
  match history with
  | none => some (syntheticFrame noise lookback symbols)
  | some h =>
      if h.empty then some (syntheticFrame noise lookback symbols)
      else (h.select symbols).map DataFrame.pctChange

def mvoTag : String := "MVO Output"

/-- _weights_to_targets: quantity equals equity times weight over price,
skipping symbols without a positive price; weights are aligned with the
symbol order. -/
def weightsToTargets (symbols : List String) (weights : List ℚ)
    (ctx : AlgorithmContext) : List PortfolioTarget :=
  (symbols.zip weights).filterMap (fun sw =>
    let price := symbolPrice ctx sw.1
    if price ≤ 0 then none
    else some { symbol := sw.1,
                quantity := ctx.portfolio_state.equity * sw.2 / price,
                tag := some mvoTag })

/-- _create_safe_fallback_targets: equal weights 1/N. -/
def createSafeFallbackTargets (symbols : List String)
    (ctx : AlgorithmContext) : List PortfolioTarget :=
  if symbols.length = 0 then []
  else weightsToTargets symbols
    (symbols.map (fun _ => (1 : ℚ) / symbols.length)) ctx

/-- Lexicographic comparison of char code points: the Python string
order used by sorted(). -/
def strLeChars : List Char → List Char → Bool
  | [], _ => true
  | _ :: _, [] => false
  | a :: as, b :: bs =>
      if a.toNat < b.toNat then true
      else if b.toNat < a.toNat then false
      else strLeChars as bs

def strLe (a b : String) : Bool :=
  strLeChars a.data b.data

/-- Insertion step of the sort. -/
def insertStr (s : String) : List String → List String
  | [] => [s]
  | a :: rest => if strLe s a then s :: a :: rest else a :: insertStr s rest

/-- A total sort by strLe: Python sorted() on distinct strings. -/
def sortStrings : List String → List String
  | [] => []
  | a :: rest => insertStr a (sortStrings rest)

/-- sorted(list(set(i.symbol for i in active_insights))). -/
def sortedSymbols (active : List Insight) : List String :=
  sortStrings (active.map (fun i => i.symbol)).dedup

/-- Mean magnitude over the active insights of one symbol (mu entry). -/
def meanMagnitude (active : List Insight) (s : String) : ℚ :=
  let si := active.filter (fun i => i.symbol == s)
  (si.map (fun i => i.magnitude)).sum / (si.length : ℚ)

/-- MeanVarianceOptimizationPortfolioConstructionModel state:
configuration plus the owned insight collection and the removed-symbol
buffer fed by on_securities_changed. -/
structure MVOModel where
  lookback : Nat := 63
  target_return : ℚ := 1 / 50
  insight_collection : InsightCollection := {}
  _removed_symbols : List String := []

/-- The lifecycle step of create_targets: feed the new insights, purge
expired entries as of context time, then purge the symbols marked
removed, when any. -/
def lifecycleCollection (m : MVOModel) (newInsights : List Insight)
    (ctx : AlgorithmContext) : InsightCollection :=
  let col := (m.insight_collection.add newInsights).remove_expired ctx.time
  if m._removed_symbols.isEmpty then col else col.clear m._removed_symbols

/-- The sorted distinct active symbols after the lifecycle step. -/
def activeSymbols (m : MVOModel) (newInsights : List Insight)
    (ctx : AlgorithmContext) : List String :=
  sortedSymbols
    ((lifecycleCollection m newInsights ctx).get_active_insights ctx.time)

/-- create_targets. The numeric core after the data checks, that is the
sample covariance, the condition-number regularization and the SLSQP
minimization of lines 61 to 91, is external floating-point code modelled
by the opaque solve parameter: `some w` is a converged res.x, `none` a
non-converged solve, which falls back to the equal-weight initial guess.
Covariance and condition-number evaluation on a nonempty finite numeric
frame raises no exception, so the try of lines 53 to 67 catches exactly
the returns-matrix errors, modelled by the Option bind. history models
the value returned by the context history accessor. Returns the target
list together with the updated model state. -/
def MVOModel.createTargets (m : MVOModel) (noise : Nat → Nat → ℚ)
    (solve : List String → List ℚ → DataFrame → Option (List ℚ))
    (newInsights : List Insight) (ctx : AlgorithmContext)
    (history : Option DataFrame) : List PortfolioTarget × MVOModel :=
  let col := lifecycleCollection m newInsights ctx
  let mOut : MVOModel :=
    { m with insight_collection := col, _removed_symbols := [] }
  let active := col.get_active_insights ctx.time
  if active.isEmpty then ([], mOut)
  else
    let symbols := sortedSymbols active
    let n := symbols.length
    if n < 1 then ([], mOut)
    else
      let mu := symbols.map (meanMagnitude active)
      match (getReturnsMatrix noise m.lookback symbols history).bind
          (fun rdf => rdf.select symbols) with
      | none => (createSafeFallbackTargets symbols ctx, mOut)
      | some rdf =>
          if rdf.empty || decide (rdf.width < n) then
            (createSafeFallbackTargets symbols ctx, mOut)
          else
            let initGuess := symbols.map (fun _ => (1 : ℚ) / n)
            let weights := (solve symbols mu rdf).getD initGuess
            (weightsToTargets symbols weights ctx, mOut)

/-! ### Portfolio construction fixtures -/

/-- An active AAPL insight for the portfolio construction fixtures. -/
def c3iA : Insight :=
  { symbol := aapl, generated_time_utc := 0, period := 10, direction := .up,
    magnitude := 1 / 20, source_model := modelA }

/-- An active TSLA insight for the portfolio construction fixtures. -/
def c3iB : Insight :=
  { symbol := tsla, generated_time_utc := 0, period := 10, direction := .up,
    magnitude := 1 / 25, source_model := modelA }

/-- MVO model owning the two active insights, with a short lookback. -/
def c3Model : MVOModel :=
  { lookback := 2,
    insight_collection :=
      { _active_insights := [(insightKey c3iA, c3iA), (insightKey c3iB, c3iB)] } }

def c3Ctx : AlgorithmContext :=
  { time := 0, portfolio_state := { equity := 100000 },
    current_prices := [(aapl, 10), (tsla, 10)] }

/-- A converged solver returning the feasible weight vector (1, 0). -/
def c3Solve : List String → List ℚ → DataFrame → Option (List ℚ) :=
  fun _ _ _ => some [1, 0]

def c3Noise : Nat → Nat → ℚ := fun _ _ => 0

/-- MVO model owning one active AAPL insight. -/
def w3Model : MVOModel :=
  { insight_collection := { _active_insights := [(insightKey c3iA, c3iA)] } }

def w3Ctx : AlgorithmContext :=
  { time := 0, portfolio_state := { equity := 100000 },
    current_prices := [(aapl, 150)] }

/-- A nonempty history frame lacking the AAPL column. -/
def w3History : DataFrame :=
  { cols := [xyz], rows := [[1], [2]] }

/-! ### Execution planner theorems -/

theorem actionFor_pos {d : ℚ} (h : 0 < d) : actionFor d = buyAction := by
  rw [actionFor, if_pos h]

theorem actionFor_neg {d : ℚ} (h : d < 0) : actionFor d = sellAction := by
  rw [actionFor, if_neg (not_lt.mpr (le_of_lt h)), if_pos h]

/-- Closed form of planOrder used by the proofs below. -/
theorem planOrder_eq (p : ExecutionPlanner) (ctx : AlgorithmContext)
    (target : PortfolioTarget) :
    planOrder p ctx target =
      if symbolPrice ctx target.symbol ≤ 0 then none
      else if |(target.quantity - currentQty ctx target.symbol) *
                 symbolPrice ctx target.symbol| < p.min_trade_value then none
      else
        some { ticker := target.symbol,
               action := actionFor (target.quantity - currentQty ctx target.symbol),
               quantity := |target.quantity - currentQty ctx target.symbol|,
               trade_value := |(target.quantity - currentQty ctx target.symbol) *
                                symbolPrice ctx target.symbol|,
               cost_estimate := |(target.quantity - currentQty ctx target.symbol) *
                                  symbolPrice ctx target.symbol| * p.slippage_pct } :=
  rfl

/-- Claim C4: for a target whose symbol has a positive price, execute emits
an order exactly when the absolute delta notional reaches min_trade_value;
the emitted order carries action buy for positive delta and sell for
negative delta, quantity equal to the absolute delta, trade_value equal to
the absolute delta notional, and cost_estimate equal to trade_value times
the slippage rate; targets without a positive price are skipped; execute is
the per-target plan collected over the list. -/
theorem execute_emission_characterization
    (p : ExecutionPlanner) (ctx : AlgorithmContext) (t : PortfolioTarget)
    (hp : 0 < symbolPrice ctx t.symbol) :
    (∀ targets, p.execute targets ctx = targets.filterMap (planOrder p ctx)) ∧
    ((planOrder p ctx t).isSome ↔
       p.min_trade_value ≤
         |(t.quantity - currentQty ctx t.symbol) * symbolPrice ctx t.symbol|) ∧
    (∀ o, planOrder p ctx t = some o →
       o.ticker = t.symbol ∧
       o.quantity = |t.quantity - currentQty ctx t.symbol| ∧
       o.trade_value =
         |(t.quantity - currentQty ctx t.symbol) * symbolPrice ctx t.symbol| ∧
       o.cost_estimate = o.trade_value * p.slippage_pct ∧
       (0 < t.quantity - currentQty ctx t.symbol → o.action = buyAction) ∧
       (t.quantity - currentQty ctx t.symbol < 0 → o.action = sellAction)) ∧
    (∀ t2 : PortfolioTarget, symbolPrice ctx t2.symbol ≤ 0 →
       planOrder p ctx t2 = none) := by
  refine ⟨fun _ => rfl, ?_, ?_, ?_⟩
  · rw [planOrder_eq, if_neg (not_le.mpr hp)]
    by_cases hv : |(t.quantity - currentQty ctx t.symbol) *
        symbolPrice ctx t.symbol| < p.min_trade_value
    · rw [if_pos hv]
      simp [not_le.mpr hv]
    · rw [if_neg hv]
      simp [not_lt.mp hv]
  · intro o ho
    rw [planOrder_eq, if_neg (not_le.mpr hp)] at ho
    by_cases hv : |(t.quantity - currentQty ctx t.symbol) *
        symbolPrice ctx t.symbol| < p.min_trade_value
    · rw [if_pos hv] at ho
      exact absurd ho (by simp)
    · rw [if_neg hv] at ho
      obtain rfl := Option.some.inj ho
      refine ⟨rfl, rfl, rfl, rfl, ?_, ?_⟩
      · intro hd
        exact actionFor_pos hd
      · intro hd
        exact actionFor_neg hd
  · intro t2 h2
    rw [planOrder_eq, if_pos h2]

/-- Witness for C4 at the repository test fixture. -/
theorem execute_emission_characterization_witness :
    0 < symbolPrice c4Ctx c4Target.symbol ∧
    ((planOrder defaultPlanner c4Ctx c4Target).isSome ↔
       defaultPlanner.min_trade_value ≤
         |(c4Target.quantity - currentQty c4Ctx c4Target.symbol) *
            symbolPrice c4Ctx c4Target.symbol|) :=
  ⟨by decide,
   (execute_emission_characterization defaultPlanner c4Ctx c4Target (by decide)).2.1⟩

/-- Claim C10: with a strictly positive minimum trade value every emitted
order has action buy or sell (never the initial hold) and strictly positive
quantity. -/
theorem execute_orders_buy_or_sell_positive_qty
    (p : ExecutionPlanner) (ctx : AlgorithmContext)
    (targets : List PortfolioTarget) (hmin : 0 < p.min_trade_value) :
    ∀ o ∈ p.execute targets ctx,
      (o.action = buyAction ∨ o.action = sellAction) ∧ 0 < o.quantity := by
  intro o ho
  rw [ExecutionPlanner.execute, List.mem_filterMap] at ho
  obtain ⟨t, -, hpt⟩ := ho
  rw [planOrder_eq] at hpt
  by_cases hprice : symbolPrice ctx t.symbol ≤ 0
  · rw [if_pos hprice] at hpt
    exact absurd hpt (by simp)
  · rw [if_neg hprice] at hpt
    by_cases hv : |(t.quantity - currentQty ctx t.symbol) *
        symbolPrice ctx t.symbol| < p.min_trade_value
    · rw [if_pos hv] at hpt
      exact absurd hpt (by simp)
    · rw [if_neg hv] at hpt
      obtain rfl := Option.some.inj hpt
      have htv : 0 < |(t.quantity - currentQty ctx t.symbol) *
          symbolPrice ctx t.symbol| := lt_of_lt_of_le hmin (not_lt.mp hv)
      have hdiff : t.quantity - currentQty ctx t.symbol ≠ 0 := by
        intro h0
        rw [h0, zero_mul, abs_zero] at htv
        exact lt_irrefl 0 htv
      constructor
      · rcases lt_or_gt_of_ne hdiff with hneg | hpos
        · right
          exact actionFor_neg hneg
        · left
          exact actionFor_pos hpos
      · simpa [abs_pos] using hdiff

/-- Witness for C10 at the repository test fixture. -/
theorem execute_orders_buy_or_sell_positive_qty_witness :
    0 < defaultPlanner.min_trade_value ∧
    ∀ o ∈ defaultPlanner.execute c4Targets c4Ctx,
      (o.action = buyAction ∨ o.action = sellAction) ∧ 0 < o.quantity :=
  ⟨by decide,
   execute_orders_buy_or_sell_positive_qty defaultPlanner c4Ctx c4Targets (by decide)⟩

/-- Claim C5 counterexample: with a zero minimum trade value, a target equal
to the current holding still emits a hold order, so execute does not return
the empty list even though every target matches its current holding. -/
theorem execute_holdings_counterexample :
    (∀ t ∈ holdTargets, t.quantity = currentQty c4Ctx t.symbol) ∧
    zeroMinPlanner.execute holdTargets c4Ctx ≠ [] := by
  constructor
  · intro t ht
    rw [List.mem_singleton.mp ht]
    simp [currentQty, getD, alookup, c4Ctx, aapl]
  · have hplan : zeroMinPlanner.execute holdTargets c4Ctx =
        [{ ticker := aapl, action := holdAction, quantity := 0,
           trade_value := 0, cost_estimate := 0 }] := by
      simp [ExecutionPlanner.execute, holdTargets, planOrder, actionFor,
        zeroMinPlanner, symbolPrice, currentQty, getD, alookup, c4Ctx, aapl]
    rw [hplan]
    simp

/-- Claim C5 (amended): execute is a pure function, so identical inputs give
identical outputs, and when the configured minimum trade value is strictly
positive, a target list in which every quantity equals the current holding
yields the empty order list. -/
theorem execute_idempotent_empty_on_no_delta
    (p : ExecutionPlanner) (ctx : AlgorithmContext)
    (targets : List PortfolioTarget) (hmin : 0 < p.min_trade_value)
    (hhold : ∀ t ∈ targets, t.quantity = currentQty ctx t.symbol) :
    p.execute targets ctx = p.execute targets ctx ∧
    p.execute targets ctx = [] := by
  refine ⟨rfl, ?_⟩
  rw [ExecutionPlanner.execute, List.filterMap_eq_nil_iff]
  intro t ht
  rw [planOrder_eq]
  by_cases hprice : symbolPrice ctx t.symbol ≤ 0
  · rw [if_pos hprice]
  · rw [if_neg hprice]
    have hz : t.quantity - currentQty ctx t.symbol = 0 := by
      rw [hhold t ht, sub_self]
    rw [if_pos (by rw [hz, zero_mul, abs_zero]; exact hmin)]

/-- Witness for the amended C5 at the repository test fixture. -/
theorem execute_idempotent_empty_on_no_delta_witness :
    defaultPlanner.execute holdTargets c4Ctx = [] :=
  (execute_idempotent_empty_on_no_delta defaultPlanner c4Ctx holdTargets
    (by decide)
    (by
      intro t ht
      rw [List.mem_singleton.mp ht]
      simp [currentQty, getD, alookup, c4Ctx, aapl])).2

/-! ### Risk gate theorems -/

/-- Claim C1 (code-bug evidence): at price 3, equity 100000 and the default
0.20 cap, a short target of -10000 shares is clamped to -6667 shares whose
notional 20001 strictly exceeds cap times equity = 20000, because floor
division toward negative infinity rounds a short magnitude up instead of
down; the cap invariant asserted by the spec and by the repository test
fails by a full unit of price. -/
theorem concentration_cap_short_overflow :
    c1Model.adjust_targets [{ symbol := xyz, quantity := -10000 }] c1Ctx =
      [{ symbol := xyz, quantity := -6667 }] ∧
    ¬ (|(-6667 : ℚ) * 3| ≤
         c1Ctx.portfolio_state.equity * c1Model.max_concentration) := by
  constructor
  · have hfloor : Int.floor (((100000 : ℚ) * (1 / 5) * -1) / 3) = -6667 := by
      rw [Int.floor_eq_iff]
      norm_num
    simp only [InstitutionalRiskModel.adjust_targets, List.map_cons, List.map_nil,
      adjustTarget, altmanZ, symbolPrice, getD, alookup, c1Ctx, c1Model, xyz]
    norm_num [hfloor]
  · norm_num [c1Ctx, c1Model]

/-- Claim C2: a target whose scorecard distress value is present, non-zero
and strictly below the configured minimum is forced to quantity exactly 0
whatever the pre-gate quantity was, and the subsequent concentration cap
leaves the zeroed target unchanged (the cap budget being nonnegative). -/
theorem distress_veto_zeroes_target
    (m : InstitutionalRiskModel) (ctx : AlgorithmContext) (t : PortfolioTarget)
    (hz0 : altmanZ ctx t.symbol ≠ 0)
    (hzlt : altmanZ ctx t.symbol < m.min_altman_z)
    (hbudget : 0 ≤ ctx.portfolio_state.equity * m.max_concentration) :
    adjustTarget m ctx t = { symbol := t.symbol, quantity := 0, tag := t.tag } ∧
    ∀ targets, m.adjust_targets targets ctx = targets.map (adjustTarget m ctx) := by
  have hveto : (if altmanZ ctx t.symbol < m.min_altman_z ∧ altmanZ ctx t.symbol ≠ 0
      then (0 : ℚ) else t.quantity) = 0 := if_pos ⟨hzlt, hz0⟩
  refine ⟨?_, ?_⟩
  · simp only [adjustTarget, PortfolioTarget.mk.injEq]
    refine ⟨trivial, ?_, trivial⟩
    rw [hveto]
    by_cases hp : 0 < symbolPrice ctx t.symbol
    · rw [if_pos hp, zero_mul, abs_zero, if_neg (not_lt.mpr hbudget)]
    · rw [if_neg hp]
  · intro targets
    rfl

/-- Witness for C2: the distressed TSLA target of 50 shares is zeroed. -/
theorem distress_veto_zeroes_target_witness :
    adjustTarget {} c2Ctx { symbol := tsla, quantity := 50 } =
      { symbol := tsla, quantity := 0, tag := none } :=
  (distress_veto_zeroes_target {} c2Ctx { symbol := tsla, quantity := 50 }
    (by norm_num [altmanZ, getD, alookup, c2Ctx, tsla, altmanKey])
    (by norm_num [altmanZ, getD, alookup, c2Ctx, tsla, altmanKey])
    (by norm_num [c2Ctx])).1

/-! ### Association list lemmas -/

theorem alookup_setItem {κ α : Type} [DecidableEq κ]
    (m : List (κ × α)) (k k2 : κ) (v : α) :
    alookup (setItem m k v) k2 = if k = k2 then some v else alookup m k2 := by
  induction m with
  | nil => simp [setItem, alookup]
  | cons p rest ih =>
      by_cases h : p.1 = k
      · by_cases h2 : k = k2
        · subst h2
          simp [setItem, alookup, h]
        · have hpk2 : ¬ p.1 = k2 := fun hc => h2 (h.symm.trans hc)
          simp [setItem, alookup, h, h2, hpk2]
      · by_cases h2 : p.1 = k2
        · have hkk2 : ¬ k = k2 := fun hc => h (h2.trans hc.symm)
          have hk2k : ¬ k2 = k := fun hc => h (h2.trans hc)
          simp [setItem, alookup, h, h2, hkk2, hk2k]
        · simp [setItem, alookup, h, h2, ih]

theorem alookup_addOne (c : InsightCollection) (a : Insight)
    (k : InsightKey) (i : Insight)
    (h : alookup (addOne c a)._active_insights k = some i) :
    alookup c._active_insights k = some i ∨ i = a := by
  rcases hl : alookup c._active_insights (insightKey a) with _ | ex
  · simp only [addOne, hl] at h
    rw [alookup_setItem] at h
    by_cases hk : insightKey a = k
    · rw [if_pos hk] at h
      exact Or.inr (Option.some.inj h).symm
    · rw [if_neg hk] at h
      exact Or.inl h
  · simp only [addOne, hl] at h
    by_cases htime : ex.generated_time_utc ≤ a.generated_time_utc
    · rw [if_pos htime] at h
      rw [alookup_setItem] at h
      by_cases hk : insightKey a = k
      · rw [if_pos hk] at h
        exact Or.inr (Option.some.inj h).symm
      · rw [if_neg hk] at h
        exact Or.inl h
    · rw [if_neg htime] at h
      exact Or.inl h

/-- An insight stored after add was stored before or belongs to the added
list. -/
theorem alookup_add (l : List Insight) (c : InsightCollection)
    (k : InsightKey) (i : Insight)
    (h : alookup ((c.add l)._active_insights) k = some i) :
    alookup c._active_insights k = some i ∨ i ∈ l := by
  induction l generalizing c with
  | nil => exact Or.inl h
  | cons a rest ih =>
      rcases ih (addOne c a) h with h1 | h2
      · rcases alookup_addOne c a k i h1 with h3 | h3
        · exact Or.inl h3
        · exact Or.inr (by rw [h3]; exact List.mem_cons_self a rest)
      · exact Or.inr (List.mem_cons_of_mem a h2)

/-- A successfully validated insight has a strictly positive period. -/
theorem validateInsight_pos_period (r : RawInsight) (i : Insight)
    (h : validateInsight r = some i) : 0 < i.period := by
  obtain ⟨sym, gt, per, ty, dir, mag, conf, wt, sm, tg⟩ := r
  cases mag with
  | val q =>
      simp only [validateInsight] at h
      split_ifs at h with hper hconf
      · obtain rfl := Option.some.inj h
        exact hper
  | nan => exact absurd h (by simp [validateInsight])
  | posInf => exact absurd h (by simp [validateInsight])
  | negInf => exact absurd h (by simp [validateInsight])

/-- Claim C6: add inserts at an absent key, replaces an existing entry
exactly when the incoming generated time is greater than or equal to the
stored one, and consequently two insights sharing a key with strictly
increasing generated times leave the newer one active under either
insertion order. -/
theorem insight_add_replacement
    (i1 i2 : Insight) (hkey : insightKey i1 = insightKey i2)
    (ht : i1.generated_time_utc < i2.generated_time_utc) :
    (∀ c i, alookup c._active_insights (insightKey i) = none →
       (addOne c i)._active_insights =
         setItem c._active_insights (insightKey i) i) ∧
    (∀ c i ex, alookup c._active_insights (insightKey i) = some ex →
       addOne c i =
         if ex.generated_time_utc ≤ i.generated_time_utc
         then { _active_insights := setItem c._active_insights (insightKey i) i }
         else c) ∧
    alookup ((emptyCollection.add [i1, i2])._active_insights)
      (insightKey i2) = some i2 ∧
    alookup ((emptyCollection.add [i2, i1])._active_insights)
      (insightKey i2) = some i2 := by
  refine ⟨?_, ?_, ?_, ?_⟩
  · intro c i h
    simp [addOne, h]
  · intro c i ex h
    simp [addOne, h]
  · simp [InsightCollection.add, emptyCollection, addOne, alookup, setItem,
      hkey, ht.le, ht.not_le]
  · simp [InsightCollection.add, emptyCollection, addOne, alookup, setItem,
      ← hkey, ht.le, ht.not_le]

/-- Witness for C6 with two concrete insights on the key (AAPL, M1). -/
theorem insight_add_replacement_witness :
    alookup ((emptyCollection.add [w6a, w6b])._active_insights)
      (insightKey w6b) = some w6b :=
  (insight_add_replacement w6a w6b rfl (by norm_num [w6a, w6b])).2.2.1

/-- Claim C7: is_expired at u holds exactly when generated time plus period
has reached u, so a stored insight is returned by get_active_insights
strictly before its expiry instant and every returned insight is strictly
before expiry. -/
theorem insight_expiry_boundary
    (i : Insight) (u : ℚ) (c : InsightCollection) (k : InsightKey) :
    (i.is_expired u = true ↔ i.generated_time_utc + i.period ≤ u) ∧
    ((k, i) ∈ c._active_insights → u < i.generated_time_utc + i.period →
       i ∈ c.get_active_insights u) ∧
    (i ∈ c.get_active_insights u → u < i.generated_time_utc + i.period) := by
  refine ⟨?_, ?_, ?_⟩
  · simp [Insight.is_expired]
  · intro hmem hu
    rw [InsightCollection.get_active_insights]
    rw [List.mem_filter]
    constructor
    · exact List.mem_map.mpr ⟨(k, i), hmem, rfl⟩
    · simp [Insight.is_expired, not_le.mpr hu]
  · intro hmem
    rw [InsightCollection.get_active_insights, List.mem_filter] at hmem
    have := hmem.2
    simpa [Insight.is_expired] using this

/-- Witness for C7: the (AAPL, M1) insight generated at 0 with period 10 is
still active at time 5. -/
theorem insight_expiry_boundary_witness :
    w6a ∈ w7Collection.get_active_insights 5 :=
  (insight_expiry_boundary w6a 5 w7Collection (insightKey w6a)).2.1
    (by simp [w7Collection]) (by norm_num [w6a])

/-- Claim C9: constructing an Insight with a non-finite magnitude or a
non-positive period yields a validation error, so every insight stored in a
collection built from validated insights has a strictly positive period
(and a finite rational magnitude by construction); a finite magnitude,
strictly positive period and confidence within [0, 1] construct
successfully. -/
theorem insight_validation (r : RawInsight) :
    ((r.magnitude.isfinite = false ∨ r.period ≤ 0) →
       validateInsight r = none) ∧
    (∀ q, r.magnitude = PyFloat.val q → 0 < r.period →
       0 ≤ r.confidence → r.confidence ≤ 1 →
       validateInsight r =
         some { symbol := r.symbol, generated_time_utc := r.generated_time_utc,
                period := r.period, type := r.type, direction := r.direction,
                magnitude := q, confidence := r.confidence, weight := r.weight,
                source_model := r.source_model, tag := r.tag }) ∧
    (∀ i, validateInsight r = some i → 0 < i.period) ∧
    (∀ raws : List RawInsight, ∀ k i,
       alookup ((emptyCollection.add
           (raws.filterMap validateInsight))._active_insights) k = some i →
       0 < i.period) := by
  refine ⟨?_, ?_, fun i h => validateInsight_pos_period r i h, ?_⟩
  · intro h
    obtain ⟨sym, gt, per, ty, dir, mag, conf, wt, sm, tg⟩ := r
    cases mag with
    | val q =>
        rcases h with h | h
        · exact absurd h (by simp [PyFloat.isfinite])
        · simp [validateInsight, not_lt.mpr h]
    | nan => simp [validateInsight]
    | posInf => simp [validateInsight]
    | negInf => simp [validateInsight]
  · intro q hq hper h0 h1
    obtain ⟨sym, gt, per, ty, dir, mag, conf, wt, sm, tg⟩ := r
    obtain rfl := hq
    simp [validateInsight, hper, h0, h1]
  · intro raws k i h
    rcases alookup_add (raws.filterMap validateInsight) emptyCollection k i h
      with h1 | h2
    · exact absurd h1 (by simp [emptyCollection, alookup])
    · rw [List.mem_filterMap] at h2
      obtain ⟨r2, -, hr2⟩ := h2
      exact validateInsight_pos_period r2 i hr2

/-- Witness for C9: the NaN-magnitude raw insight is rejected and the
well-formed raw insight constructs successfully. -/
theorem insight_validation_witness :
    validateInsight rawNaN = none ∧
    validateInsight rawGood =
      some { symbol := rawGood.symbol,
             generated_time_utc := rawGood.generated_time_utc,
             period := rawGood.period, type := rawGood.type,
             direction := rawGood.direction, magnitude := 1 / 20,
             confidence := rawGood.confidence, weight := rawGood.weight,
             source_model := rawGood.source_model, tag := rawGood.tag } :=
  ⟨(insight_validation rawNaN).1 (Or.inl rfl),
   (insight_validation rawGood).2.1 (1 / 20) rfl (by norm_num [rawGood])
     (by norm_num [rawGood]) (by norm_num [rawGood])⟩

/-! ### Portfolio construction theorems -/

/-- When the price history is a nonempty frame missing a requested column,
or holding at most one row, the data step of create_targets yields no
frame or an empty returns frame. -/
theorem dataStep_insufficient (noise : Nat → Nat → ℚ) (lookback : Nat)
    (symbols : List String) (df : DataFrame) (hne : df.empty = false)
    (hinsuf : (∃ s ∈ symbols, df.cols.contains s = false) ∨
              df.rows.length ≤ 1) :
    ∀ rdf, (getReturnsMatrix noise lookback symbols (some df)).bind
        (fun r => r.select symbols) = some rdf → rdf.empty = true := by
  intro rdf h
  simp only [getReturnsMatrix] at h
  rw [if_neg (by simp [hne])] at h
  rcases hsel : df.select symbols with _ | sel
  · rw [hsel] at h
    simp at h
  · rw [hsel] at h
    simp only [Option.map_some', Option.some_bind] at h
    rcases hinsuf with ⟨s, hs, hmiss⟩ | hrows
    · exfalso
      rw [DataFrame.select] at hsel
      split_ifs at hsel with hall
      rw [List.all_eq_true] at hall
      have hc := hall s hs
      rw [hmiss] at hc
      exact Bool.false_ne_true hc
    · have hselrows : sel.rows.length = df.rows.length := by
        rw [DataFrame.select] at hsel
        split_ifs at hsel with hall
        obtain rfl := Option.some.inj hsel
        simp
      have hzip : sel.rows.zip sel.rows.tail = [] := by
        cases hr : sel.rows with
        | nil => simp
        | cons r0 rest =>
            have hrest : rest.length = 0 := by
              rw [hr] at hselrows
              simp only [List.length_cons] at hselrows
              omega
            rw [List.length_eq_zero] at hrest
            subst hrest
            simp
      rw [DataFrame.select] at h
      split_ifs at h with hall2
      obtain rfl := Option.some.inj h
      simp [DataFrame.empty, DataFrame.pctChange, hzip]

/-- Claim C3 (amended): when the history frame is nonempty but misses a
column for an active symbol, or yields at most one usable row so the
derived returns matrix is empty, create_targets returns the deterministic
equal-weight fallback targets, whatever the solver and the noise source
do, and no error escapes; an absent history instead produces the seeded
synthetic returns frame and proceeds to the MVO solve. -/
theorem create_targets_insufficiency_fallback
    (m : MVOModel) (noise : Nat → Nat → ℚ)
    (solve : List String → List ℚ → DataFrame → Option (List ℚ))
    (newInsights : List Insight) (ctx : AlgorithmContext) (df : DataFrame)
    (hne : df.empty = false)
    (hinsuf : (∃ s ∈ activeSymbols m newInsights ctx,
                 df.cols.contains s = false) ∨ df.rows.length ≤ 1) :
    (m.createTargets noise solve newInsights ctx (some df)).1 =
      createSafeFallbackTargets (activeSymbols m newInsights ctx) ctx := by
  simp only [MVOModel.createTargets]
  by_cases hA : ((lifecycleCollection m newInsights ctx).get_active_insights
      ctx.time).isEmpty
  · rw [if_pos hA]
    have hnil := List.isEmpty_iff.mp hA
    simp [activeSymbols, sortedSymbols, hnil, sortStrings,
      createSafeFallbackTargets]
  · rw [if_neg hA]
    by_cases hN : (sortedSymbols ((lifecycleCollection m newInsights
        ctx).get_active_insights ctx.time)).length < 1
    · rw [if_pos hN]
      simp only [activeSymbols, createSafeFallbackTargets]
      rw [if_pos (by omega)]
    · rw [if_neg hN]
      split
      · rfl
      · rename_i rdf heq
        have hempty := dataStep_insufficient noise m.lookback
          (sortedSymbols ((lifecycleCollection m newInsights
            ctx).get_active_insights ctx.time)) df hne hinsuf rdf heq
        rw [hempty]
        simp only [Bool.true_or, if_true]
        rfl

/-- Lifecycle evaluation of the two-insight fixture: both insights are
still active at time 0. -/
theorem c3_active_eval :
    (lifecycleCollection c3Model [] c3Ctx).get_active_insights c3Ctx.time =
      [c3iA, c3iB] := by
  norm_num [lifecycleCollection, InsightCollection.add,
    InsightCollection.remove_expired, InsightCollection.get_active_insights,
    c3Model, c3Ctx, c3iA, c3iB, Insight.is_expired, insightKey]

/-- Sorting evaluation of the two-insight fixture. -/
theorem c3_sorted_eval : sortedSymbols [c3iA, c3iB] = [aapl, tsla] := by
  have h1 : strLe aapl tsla = true := by decide
  have h2 : ¬ (aapl = tsla) := by decide
  have h3 : ¬ (tsla = aapl) := by decide
  norm_num [sortedSymbols, c3iA, c3iB, sortStrings, insertStr, h1, h2, h3]

/-- Claim C3 counterexample: with no history at all, create_targets does
not return the equal-weight fallback: the seeded synthetic frame is
substituted and the MVO solve runs, so the output follows the solver
weights (here the feasible vector (1, 0), giving AAPL quantity 10000)
instead of the equal weights (1/2, 1/2), which would give 5000. -/
theorem create_targets_no_history_not_fallback :
    (c3Model.createTargets c3Noise c3Solve [] c3Ctx none).1 ≠
      createSafeFallbackTargets (activeSymbols c3Model [] c3Ctx) c3Ctx := by
  have hlhs : (c3Model.createTargets c3Noise c3Solve [] c3Ctx none).1 =
      weightsToTargets [aapl, tsla] [1, 0] c3Ctx := by
    simp only [MVOModel.createTargets, c3_active_eval, c3_sorted_eval]
    norm_num [getReturnsMatrix, syntheticFrame, DataFrame.select,
      DataFrame.empty, DataFrame.width, c3Solve, c3Noise, List.range_succ,
      DataFrame.colValue, c3Model]
  have hrhs : createSafeFallbackTargets (activeSymbols c3Model [] c3Ctx) c3Ctx =
      weightsToTargets [aapl, tsla] [1 / 2, 1 / 2] c3Ctx := by
    simp only [activeSymbols, c3_active_eval, c3_sorted_eval]
    norm_num [createSafeFallbackTargets]
  rw [hlhs, hrhs]
  have h2 : ¬ (tsla = aapl) := by decide
  norm_num [weightsToTargets, symbolPrice, getD, alookup, c3Ctx, h2,
    List.filterMap_cons, List.zip]

/-- Witness for the amended C3: a nonempty two-row history frame lacking
the AAPL column sends the single-insight model to the equal-weight
fallback, for a solver and noise source chosen arbitrarily. -/
theorem create_targets_insufficiency_fallback_witness :
    (w3Model.createTargets c3Noise c3Solve [] w3Ctx (some w3History)).1 =
      createSafeFallbackTargets (activeSymbols w3Model [] w3Ctx) w3Ctx :=
  create_targets_insufficiency_fallback w3Model c3Noise c3Solve [] w3Ctx
    w3History (by decide)
    (Or.inl ⟨aapl,
      by
        have h : activeSymbols w3Model [] w3Ctx = [aapl] := by
          norm_num [activeSymbols, lifecycleCollection, InsightCollection.add,
            InsightCollection.remove_expired,
            InsightCollection.get_active_insights, w3Model, w3Ctx, c3iA,
            Insight.is_expired, insightKey, sortedSymbols, sortStrings,
            insertStr]
        rw [h]
        exact List.mem_singleton.mpr rfl,
      by decide⟩)

/-- Cons step of _weights_to_targets at a positive price. -/
theorem weightsToTargets_cons_pos (s : String) (rest : List String) (w : ℚ)
    (ws : List ℚ) (ctx : AlgorithmContext) (h : 0 < symbolPrice ctx s) :
    weightsToTargets (s :: rest) (w :: ws) ctx =
      { symbol := s,
        quantity := ctx.portfolio_state.equity * w / symbolPrice ctx s,
        tag := some mvoTag } :: weightsToTargets rest ws ctx := by
  simp only [weightsToTargets, List.zip_cons_cons, List.filterMap_cons]
  rw [if_neg (not_le.mpr h)]

/-- The budget pass-through of _weights_to_targets: with a positive price
for every symbol, nonzero equity and aligned lengths, the implied net
exposure of the produced targets equals the weight sum, so a weight vector
within 1e-6 of the budget constraint yields targets within 1e-6 of full
investment. The weight vector itself comes from the external SLSQP solve,
outside the embedding. -/
theorem weightsToTargets_net_exposure
    (symbols : List String) (weights : List ℚ) (ctx : AlgorithmContext)
    (hlen : symbols.length = weights.length)
    (hpos : ∀ s ∈ symbols, 0 < symbolPrice ctx s)
    (heq : ctx.portfolio_state.equity ≠ 0) :
    ((weightsToTargets symbols weights ctx).map
        (fun t => t.quantity * symbolPrice ctx t.symbol /
          ctx.portfolio_state.equity)).sum = weights.sum ∧
    (|weights.sum - 1| ≤ 1 / 1000000 →
     |((weightsToTargets symbols weights ctx).map
        (fun t => t.quantity * symbolPrice ctx t.symbol /
          ctx.portfolio_state.equity)).sum - 1| ≤ 1 / 1000000) := by
  have hmain : ∀ (ss : List String) (ws : List ℚ), ss.length = ws.length →
      (∀ s ∈ ss, 0 < symbolPrice ctx s) →
      ((weightsToTargets ss ws ctx).map
        (fun t => t.quantity * symbolPrice ctx t.symbol /
          ctx.portfolio_state.equity)).sum = ws.sum := by
    intro ss
    induction ss with
    | nil =>
        intro ws hl _
        rw [List.length_nil] at hl
        obtain rfl := List.length_eq_zero.mp hl.symm
        simp [weightsToTargets]
    | cons s rest ih =>
        intro ws hl hp
        cases ws with
        | nil => simp at hl
        | cons w ws2 =>
            have hps : 0 < symbolPrice ctx s := hp s (List.mem_cons_self s rest)
            rw [weightsToTargets_cons_pos s rest w ws2 ctx hps,
              List.map_cons, List.sum_cons]
            have hpne : symbolPrice ctx s ≠ 0 := ne_of_gt hps
            have hw : ctx.portfolio_state.equity * w / symbolPrice ctx s *
                symbolPrice ctx s / ctx.portfolio_state.equity = w := by
              field_simp
            have htail := ih ws2 (by simpa using hl)
              (fun s2 hs2 => hp s2 (List.mem_cons_of_mem s hs2))
            simp only [hw, htail, List.sum_cons]
  refine ⟨hmain symbols weights hlen hpos, ?_⟩
  intro htol
  rw [hmain symbols weights hlen hpos]
  exact htol

end QuantAI
